import Mathlib

/-!
Verification of the arkham-challenge pipeline (EIA nuclear-outage connector,
star-schema builder, refresh/atomic-swap API) against its specification.

The development shallowly embeds the relevant Python functions:
- `src/data_model.py` (`build_dim_plant`, `build_fact_outage`): dataframes become
  lists of records, `pandas` stable sorts become `List.insertionSort`,
  `drop_duplicates` becomes an order-preserving first-occurrence dedup, dates are
  day numbers (proleptic Gregorian, counted from 0000-03-01) with an explicit
  civil-date conversion for the `YYYYMMDD` keys.
- `src/arkham_connector/runner.py` + `incremental.py` (`run_connector`): the
  pagination loop is a fold over the sequence of fetch results; a page carries the
  records plus the `key_fields ⊆ columns` flag; null / unparseable cells are
  `Option` fields.
- `src/arkham_connector/client.py` (`fetch_page_with_retry`): the per-attempt
  outcome of `requests.get` is an oracle function; the returned trace records the
  `time.sleep` delays performed.
- `src/arkham_api/query.py` (`paginate`): dataframe slicing on lists.
- `src/arkham_api/refresh.py` (`atomic_replace_modeled_dir`): the parent directory
  is a map from names to directory contents; `Path.rename` failures are injected
  by explicit flags.
-/

/-! ## Generic list helpers -/

/-- Order-preserving dedup keeping the first occurrence of each element, the
semantics of `pandas.DataFrame.drop_duplicates()` with its default `keep="first"`.
Structural recursion over the input with an accumulator of already-seen values. -/
def dropDupFirstGo {α : Type} [DecidableEq α] (seen : List α) : List α → List α
  | [] => []
  | x :: xs =>
    if x ∈ seen then dropDupFirstGo seen xs
    else x :: dropDupFirstGo (x :: seen) xs

/-- Entry point for first-occurrence dedup (`drop_duplicates(keep="first")`). -/
def dropDupFirst {α : Type} [DecidableEq α] (l : List α) : List α :=
  dropDupFirstGo [] l

/-- Order-preserving dedup on a key, keeping the last occurrence of each key:
the semantics of `DataFrame.drop_duplicates(subset=key_fields, keep="last")`. -/
def dedupKeepLast {α β : Type} [DecidableEq β] (key : α → β) : List α → List α
  | [] => []
  | x :: xs =>
    if xs.any (fun y => key y = key x) then dedupKeepLast key xs
    else x :: dedupKeepLast key xs

/-! ## Codepoint-lexicographic string order

Python compares strings lexicographically by code point; `pandas.sort_values` on
string columns uses that order.  (Lean's built-in `String` order is the same
relation but its `Decidable` instance does not reduce in the kernel, so we spell
the comparison out over the character lists.) -/

/-- Lexicographic strict order on character lists, by code point. -/
def lexLt : List Char → List Char → Bool
  | [], [] => false
  | [], _ :: _ => true
  | _ :: _, [] => false
  | a :: as, b :: bs =>
    if a.toNat < b.toNat then true
    else if b.toNat < a.toNat then false
    else lexLt as bs

/-- Strict string comparison (Python `<` on `str`). -/
def strLtB (a b : String) : Bool := lexLt a.data b.data

/-- Reflexive string comparison (Python `<=` on `str`). -/
def strLeB (a b : String) : Bool := !(strLtB b a)

/-! ## Calendar dates

The raw `period` column is normalized with `pd.to_datetime(...).dt.normalize()`,
so a period is a calendar date.  We represent a date by its day number counted
from 0000-03-01 (proleptic Gregorian), which makes "gap in days" and "+1 day"
plain `Nat` arithmetic.  `civilFromDays`/`daysFromCivil` convert between day
numbers and `(year, month, day)` triples. -/

/-- Convert a day number (days since 0000-03-01) to a civil `(year, month, day)`. -/
def civilFromDays (z : Nat) : Nat × Nat × Nat :=
  let era := z / 146097
  let doe := z % 146097
  let yoe := (doe - doe / 1460 + doe / 36524 - doe / 146096) / 365
  let y := yoe + era * 400
  let doy := doe - (365 * yoe + yoe / 4 - yoe / 100)
  let mp := (5 * doy + 2) / 153
  let d := doy - (153 * mp + 2) / 5 + 1
  let m := if mp < 10 then mp + 3 else mp - 9
  (if m ≤ 2 then y + 1 else y, m, d)

/-- Convert a civil `(year, month, day)` to its day number (days since 0000-03-01). -/
def daysFromCivil (y m d : Nat) : Nat :=
  let y1 := if m ≤ 2 then y - 1 else y
  let era := y1 / 400
  let yoe := y1 % 400
  let mp := if 2 < m then m - 3 else m + 9
  let doy := (153 * mp + 2) / 5 + d - 1
  let doe := yoe * 365 + yoe / 4 - yoe / 100 + doy
  era * 146097 + doe

/-- Embeds `_make_date_key` of `src/data_model.py`: format a date as the
`YYYYMMDD` integer (`dt.strftime("%Y%m%d").astype("int64")`). -/
def make_date_key (day : Nat) : Nat :=
  let c := civilFromDays day
  c.1 * 10000 + c.2.1 * 100 + c.2.2

/-! ## Data model: `src/data_model.py` -/

/-- One normalized raw observation, as `build_dim_plant`/`build_fact_outage`
receive it after `main()`/`build_modeled_tables` normalized the columns
(`period` parsed to a date, `facility`/`generator` cast to `str`).  The claims
about the builders quantify over rows whose period parsed to a valid date
(a `NaT` period would make `_make_date_key` fail). -/
structure RawRow where
  period : Nat
  facility : String
  facilityName : String
  generator : String
deriving DecidableEq

/-- One row of the `DimPlant` table. -/
structure PlantRow where
  plantKey : Nat
  facilityID : String
  plantName : String
  unitName : String
  generator : String
deriving DecidableEq

/-- Sort order used by `build_dim_plant`:
`sort_values(["EIA_FacilityID", "Generator"], kind="stable")`. -/
def plantOrd (a b : String × String × String) : Prop :=
  strLtB a.1 b.1 = true ∨ (a.1 = b.1 ∧ strLeB a.2.2 b.2.2 = true)

instance : DecidableRel plantOrd := fun a b => by unfold plantOrd; infer_instance

/-- Assign 1-based surrogate plant keys by row position
(`plants.insert(0, "PlantKey", plants.index + 1)`), also deriving
`UnitName = "Unit " + Generator`. -/
def assignPlantKeys (k : Nat) : List (String × String × String) → List PlantRow
  | [] => []
  | t :: ts =>
    { plantKey := k, facilityID := t.1, plantName := t.2.1,
      unitName := "Unit " ++ t.2.2, generator := t.2.2 } :: assignPlantKeys (k + 1) ts

/-- Embeds `build_dim_plant`: distinct `(facility, facilityName, generator)`
triples (first occurrence kept), stably sorted by `(facility, generator)`,
surrogate key = 1-based position after the sort. -/
def build_dim_plant (dfRaw : List RawRow) : List PlantRow :=
  let triples := dropDupFirst (dfRaw.map (fun r => (r.facility, r.facilityName, r.generator)))
  assignPlantKeys 1 (triples.insertionSort plantOrd)

/-- One row of the `FactOutage` table.  Timestamps are day numbers (midnight of
that date); `OutageDurationHours` is exactly `(end - start) in days × 24` in the
source (`total_seconds() / 3600` of a whole-day difference), so it is a `Nat`. -/
structure FactRow where
  outageKey : Nat
  plantKey : Nat
  dateKey : Nat
  outageStartTimestamp : Nat
  outageEndTimestamp : Nat
  outageDurationHours : Nat
  eiaOutageID : String
deriving DecidableEq

/-- Sort order of the raw-with-keys frame in `build_fact_outage`:
`sort_values(["PlantKey", "period"], kind="stable")`. -/
def rawKeyOrd (a b : Nat × Nat) : Prop :=
  a.1 < b.1 ∨ (a.1 = b.1 ∧ a.2 ≤ b.2)

instance : DecidableRel rawKeyOrd := fun a b => by unfold rawKeyOrd; infer_instance

/-- Collapse a `(PlantKey, period)`-sorted row list into outage events
`(PlantKey, start, last)`.  This embeds the `groupby(...).shift` /
`cumsum` / `agg(min, max)` block of `build_fact_outage`: a row starts a new
event iff it is the first row of its plant or the day gap to the previous row
of that plant is not exactly 1; each event is aggregated to its min (= first)
and max (= last) period. -/
def collapseEventsGo (k start last : Nat) : List (Nat × Nat) → List (Nat × Nat × Nat)
  | [] => [(k, start, last)]
  | (k2, d) :: rest =>
    if k2 = k ∧ d - last = 1 then collapseEventsGo k start d rest
    else (k, start, last) :: collapseEventsGo k2 d d rest

/-- Entry point of the event-collapsing scan. -/
def collapseEvents : List (Nat × Nat) → List (Nat × Nat × Nat)
  | [] => []
  | (k, d) :: rest => collapseEventsGo k d d rest

/-- Sort order of the collapsed events:
`sort_values(["PlantKey", "OutageStartDate"], kind="stable")`. -/
def eventOrd (a b : Nat × Nat × Nat) : Prop :=
  a.1 < b.1 ∨ (a.1 = b.1 ∧ a.2.1 ≤ b.2.1)

instance : DecidableRel eventOrd := fun a b => by unfold eventOrd; infer_instance

/-- Attach the plant's natural identifiers by looking the event's `PlantKey` up
in `DimPlant` (the second `merge(..., on="PlantKey", how="left")`); a missing
plant yields pandas `NaN` columns, which `astype(str)` renders as `"nan"`. -/
def plantIdsFor (dimPlant : List PlantRow) (k : Nat) : String × String :=
  match dimPlant.find? (fun p => p.plantKey = k) with
  | some p => (p.facilityID, p.generator)
  | none => ("nan", "nan")

/-- Build one `FactOutage` row per event and assign the 1-based `OutageKey` by
row position (`events.insert(0, "OutageKey", events.index + 1)`). -/
def assignFactRows (dimPlant : List PlantRow) (k : Nat) :
    List (Nat × Nat × Nat) → List FactRow
  | [] => []
  | e :: es =>
    let dk := make_date_key e.2.1
    let ids := plantIdsFor dimPlant e.1
    { outageKey := k, plantKey := e.1, dateKey := dk,
      outageStartTimestamp := e.2.1, outageEndTimestamp := e.2.2 + 1,
      outageDurationHours := (e.2.2 + 1 - e.2.1) * 24,
      eiaOutageID := ids.1 ++ "-" ++ ids.2 ++ "-" ++ Nat.repr dk }
      :: assignFactRows dimPlant (k + 1) es

/-- Uniqueness check of the `validate="many_to_one"` option of the first merge in
`build_fact_outage`: the right-hand keys `(EIA_FacilityID, Generator)` of
`dim_plant` must be unique, otherwise pandas raises `MergeError`. -/
def pairsUnique (dimPlant : List PlantRow) : Prop :=
  (dimPlant.map (fun p => (p.facilityID, p.generator))).Pairwise (· ≠ ·)

instance : DecidablePred pairsUnique := fun dp => by unfold pairsUnique; infer_instance

/-- Uniqueness check of the `validate="many_to_one"` option of the second merge
(`on="PlantKey"`). -/
def plantKeysUnique (dimPlant : List PlantRow) : Prop :=
  (dimPlant.map (fun p => p.plantKey)).Pairwise (· ≠ ·)

instance : DecidablePred plantKeysUnique := fun dp => by unfold plantKeysUnique; infer_instance

/-- Embeds `build_fact_outage`.  `none` models the `MergeError` a violated
`validate="many_to_one"` raises.  The inner join to `dim_plant` keeps the raw
row order (pandas `how="inner"` preserves the order of the left keys) and drops
rows without a matching plant; the rest is sort → collapse → sort → row build,
as in the source. -/
def build_fact_outage (dfRaw : List RawRow) (dimPlant : List PlantRow) :
    Option (List FactRow) :=
  if pairsUnique dimPlant ∧ plantKeysUnique dimPlant then
    let rawWithKeys := dfRaw.filterMap (fun r =>
      (dimPlant.find? (fun p => p.facilityID = r.facility ∧ p.generator = r.generator)).map
        (fun p => (p.plantKey, r.period)))
    let sortedRows := rawWithKeys.insertionSort rawKeyOrd
    let events := collapseEvents sortedRows
    let sortedEvents := events.insertionSort eventOrd
    some (assignFactRows dimPlant 1 sortedEvents)
  else none

/-- Reconstruction of `EIA_OutageID` from a fact row's plant identifiers and
start-date key, the round-trip the spec states: the fact table itself carries
only `PlantKey`/`DateKey`, so the facility id and generator are recovered
through `DimPlant` exactly as the builder's left merge attached them. -/
def reconstructOutageID (dimPlant : List PlantRow) (fr : FactRow) : String :=
  let ids := plantIdsFor dimPlant fr.plantKey
  ids.1 ++ "-" ++ ids.2 ++ "-" ++ Nat.repr fr.dateKey

/-! ## Page fetcher: `src/arkham_connector/client.py` (`fetch_page_with_retry`)

The same retry loop appears in `src/connector.py` (`_fetch_page_with_retry`);
both are embedded by `fetch_page_with_retry` below.  The outcome of each
`requests.get` attempt is given by an oracle indexed by the 1-based attempt
number; the function returns the result together with the list of
`time.sleep` delays it performed, in order. -/

/-- Outcome of one `requests.get` call. -/
inductive AttemptOutcome where
  | success (payload : Nat)
  | authFailure
  | httpError
  | netError
deriving DecidableEq

/-- Result of `fetch_page_with_retry`: a parsed page, the skipped-page sentinel
(Python `None`), or the propagated `PermissionError` for HTTP 401/403. -/
inductive FetchResult where
  | page (payload : Nat)
  | skipped
  | authRaised
deriving DecidableEq

/-- The retry loop body over the remaining attempt numbers
(`for attempt in range(1, max_retries + 1)`).  An HTTP-level failure
(`HTTPError` after `raise_for_status`) returns the sentinel on the last attempt
and otherwise retries immediately; a network failure (`RequestException`)
returns the sentinel on the last attempt and otherwise sleeps
`retry_delay * 2 ** (attempt - 1)` before retrying. -/
def retryLoop (retryDelay : Nat) (outcomes : Nat → AttemptOutcome) :
    List Nat → FetchResult × List Nat
  | [] => (.skipped, [])
  | a :: rest =>
    match outcomes a with
    | .success p => (.page p, [])
    | .authFailure => (.authRaised, [])
    | .httpError =>
      if rest = [] then (.skipped, []) else retryLoop retryDelay outcomes rest
    | .netError =>
      if rest = [] then (.skipped, [])
      else
        let r := retryLoop retryDelay outcomes rest
        (r.1, retryDelay * 2 ^ (a - 1) :: r.2)

/-- Embeds `fetch_page_with_retry` (and `_fetch_page_with_retry`). -/
def fetch_page_with_retry (maxRetries retryDelay : Nat)
    (outcomes : Nat → AttemptOutcome) : FetchResult × List Nat :=
  retryLoop retryDelay outcomes (List.range' 1 maxRetries)

/-! ## Connector runner: `src/arkham_connector/runner.py` + `incremental.py`

A record is a row dict; `none` in a field models a null / unparseable cell
(`pd.to_datetime(..., errors="coerce")` turns an unparseable period into `NaT`,
which we model by `period = none`; the model assumes the three key columns are
present in every dataframe built from records, as they are whenever any record
carries them).  `tag` distinguishes the non-key payload of a row. -/

/-- One raw record as fetched from the API (or read back from the prior
parquet). -/
structure RawRec where
  period : Option Nat
  facility : Option String
  generator : Option String
  tag : Nat
deriving DecidableEq

/-- Dedup key of a record, `(period, facility, generator)` — the string key
triple `incremental.row_keys` builds (string rendering is injective on the
values occurring here). -/
def recKey (r : RawRec) : Option Nat × Option String × Option String :=
  (r.period, r.facility, r.generator)

/-- Rendering of a possibly-null cell by `astype(str)`: pandas renders `None`
as the string `"None"`. -/
def optStr : Option String → String
  | some s => s
  | none => "None"

/-- Normalization applied both by `incremental.load_existing_state` and by the
per-page block of `run_connector`: `period` through
`safe_period_to_datetime` (identity on our already-parsed `Option` model) and
`facility`/`generator` through `astype(str)` (never null afterwards). -/
def normalizeRec (r : RawRec) : RawRec :=
  { r with facility := some (optStr r.facility), generator := some (optStr r.generator) }

/-- Row validity after normalization: `dropna(subset=["period", "facility",
"generator"])`. -/
def requiredFieldsOK (r : RawRec) : Bool :=
  r.period.isSome && r.facility.isSome && r.generator.isSome

/-- The per-page normalized-and-validated frame `page_df` of `run_connector`:
normalize each record, then drop rows with nulls in the key fields. -/
def pageValidRows (records : List RawRec) : List RawRec :=
  (records.map normalizeRec).filter requiredFieldsOK

/-- The page's new rows `page_new_df`: valid rows whose key is not yet known. -/
def pageNewRows (knownKeys : List (Option Nat × Option String × Option String))
    (records : List RawRec) : List RawRec :=
  (pageValidRows records).filter (fun r => !(knownKeys.contains (recKey r)))

/-- Maximum parsed period of the page, `page_df["period"].max()` (skips nulls;
`none` iff no parsed period exists). -/
def pageParsedMax (records : List RawRec) : Option Nat :=
  ((pageValidRows records).filterMap (fun r => r.period)).max?

/-- Connector settings (`ConnectorSettings`), restricted to the fields the loop
reads.  `maxRecords = 0` disables the cap (Python truthiness of
`settings.max_records`). -/
structure ConnSettings where
  maxLimit : Nat
  maxRecords : Nat
  incremental : Bool
  earlyStopOnOldPeriod : Bool
deriving DecidableEq

/-- One fetched page: the parsed records together with whether the page frame
carried all key fields (`set(key_fields).issubset(page_df.columns)`). -/
structure PageData where
  hasKeyFields : Bool
  records : List RawRec
deriving DecidableEq

/-- Mutable state of the pagination loop. -/
structure LoopState where
  allRecords : List RawRec
  newRecords : List RawRec
  existingKeys : List (Option Nat × Option String × Option String)
  incrementalActive : Bool
deriving DecidableEq

/-- Why the pagination loop stopped. -/
inductive StopReason where
  | emptyResponse
  | noRecords
  | earlyIncremental
  | capReached
  | shortPage
deriving DecidableEq

/-- Outcome of one loop iteration. -/
inductive StepOutcome where
  | next (st : LoopState)
  | stop (r : StopReason) (st : LoopState)
deriving DecidableEq

/-- The stop reason of a step outcome, if it stopped. -/
def StepOutcome.reason? : StepOutcome → Option StopReason
  | .next _ => none
  | .stop r _ => some r

/-- The state carried out of a step outcome. -/
def StepOutcome.state : StepOutcome → LoopState
  | .next st => st
  | .stop _ st => st

/-- The cap trimming block of `run_connector`: when `total_seen` exceeds
`max_records`, trim the overflow — from the tail of `new_records` when that
list is non-empty (emptying it if the overflow is at least its length),
otherwise from the tail of `all_records`. -/
def applyCapTrim (maxRecords : Nat) (allRecs newRecs : List RawRec) :
    List RawRec × List RawRec :=
  let totalSeen := allRecs.length + newRecs.length
  if maxRecords < totalSeen then
    let overflow := totalSeen - maxRecords
    if newRecs ≠ [] then
      (allRecs,
        if overflow < newRecs.length then newRecs.take (newRecs.length - overflow) else [])
    else (allRecs.take (allRecs.length - overflow), newRecs)
  else (allRecs, newRecs)

/-- One iteration of the `while True` pagination loop of `run_connector`:
fetch result → empty-response check → empty-record check → incremental or full
accumulation (with the early-stop check) → cap check (with trimming) →
short-page check. -/
def stepPage (s : ConnSettings) (existingMaxPeriod : Option Nat) (st : LoopState)
    (fetched : Option PageData) : StepOutcome :=
  match fetched with
  | none => .stop .emptyResponse st
  | some page =>
    if page.records = [] then .stop .noRecords st
    else
      let acc : LoopState × Bool :=
        if st.incrementalActive then
          if page.hasKeyFields then
            let pageNew := pageNewRows st.existingKeys page.records
            let st1 := { st with
              newRecords := st.newRecords ++ pageNew,
              existingKeys := st.existingKeys ++ pageNew.map recKey }
            let early :=
              s.earlyStopOnOldPeriod &&
              existingMaxPeriod.isSome &&
              (pageValidRows page.records).any (fun r => r.period.isSome) &&
              (match pageParsedMax page.records, existingMaxPeriod with
               | some pm, some m => decide (pm ≤ m) && decide (pageNew = [])
               | _, _ => false)
            (st1, early)
          else
            ({ st with incrementalActive := false,
                       allRecords := st.allRecords ++ page.records }, false)
        else
          ({ st with allRecords := st.allRecords ++ page.records }, false)
      if acc.2 then .stop .earlyIncremental acc.1
      else
        let st1 := acc.1
        let totalSeen := st1.allRecords.length + st1.newRecords.length
        if s.maxRecords ≠ 0 ∧ s.maxRecords ≤ totalSeen then
          let trimmed := applyCapTrim s.maxRecords st1.allRecords st1.newRecords
          .stop .capReached { st1 with allRecords := trimmed.1, newRecords := trimmed.2 }
        else if page.records.length < s.maxLimit then .stop .shortPage st1
        else .next st1

/-- Fold of `stepPage` over the sequence of fetch results.  An exhausted
sequence is modeled as the upstream answering with no response
(`emptyResponse`). -/
def runLoop (s : ConnSettings) (existingMaxPeriod : Option Nat) :
    List (Option PageData) → LoopState → LoopState × StopReason
  | [], st => (st, .emptyResponse)
  | p :: rest, st =>
    match stepPage s existingMaxPeriod st p with
    | .next st1 => runLoop s existingMaxPeriod rest st1
    | .stop r st1 => (st1, r)

/-- Embeds `incremental.load_existing_state` on an already-read prior dataset
(`none` = file absent, unreadable, or missing the key fields): normalize the
rows, compute the dedup keys of the rows with a parsed period, and the maximum
parsed period. -/
def loadExistingState (existing : Option (List RawRec)) :
    Option (List RawRec) × List (Option Nat × Option String × Option String) × Option Nat :=
  match existing with
  | none => (none, [], none)
  | some rows =>
    let rows1 := rows.map normalizeRec
    (some rows1,
     (rows1.filter (fun r => r.period.isSome)).map recKey,
     (rows1.filterMap (fun r => r.period)).max?)

/-- Incremental merge of `run_connector`'s write stage:
`pd.concat([existing_df, df])` followed by
`drop_duplicates(subset=key_fields, keep="last")`. -/
def mergeIncremental (existing df : List RawRec) : List RawRec :=
  dedupKeepLast recKey (existing ++ df)

/-- The post-loop "Final Validation and Storage" stage of `run_connector`:
returns the dataset written to the output file, or `none` when the run ends
without writing.  Mirrors the source order: incremental no-op check → `df.empty`
check → `dropna` validation → (incremental) concat + dedup → write. -/
def finalizeRun (existingDf : Option (List RawRec)) (st : LoopState) :
    Option (List RawRec) :=
  if st.incrementalActive then
    if st.newRecords = [] then none
    else
      let dfv := st.newRecords.filter requiredFieldsOK
      match existingDf with
      | some ex => some (mergeIncremental ex dfv)
      | none => some dfv
  else
    if st.allRecords = [] then none
    else some (st.allRecords.filter requiredFieldsOK)

/-- Result of a connector run: final loop state, stop reason, and the written
dataset (`none` = no write happened). -/
structure RunResult where
  finalState : LoopState
  stopReason : StopReason
  written : Option (List RawRec)
deriving DecidableEq

/-- Embeds `run_connector`: load the prior state (only in incremental mode),
run the pagination loop over the fetch results, then finalize. -/
def run_connector (s : ConnSettings) (existing : Option (List RawRec))
    (pages : List (Option PageData)) : RunResult :=
  let loaded := if s.incremental then loadExistingState existing else (none, [], none)
  let active0 := if s.incremental then loaded.1.isSome else false
  let st0 : LoopState := ⟨[], [], loaded.2.1, active0⟩
  let ran := runLoop s loaded.2.2 pages st0
  ⟨ran.1, ran.2, finalizeRun loaded.1 ran.1⟩

/-! ## Query layer: `src/arkham_api/query.py` -/

/-- Embeds `paginate`: `df.iloc[start:end]` with `start = (page - 1) * limit`,
`end = start + limit`, returned with the pre-slice row count. -/
def paginate {α : Type} (df : List α) (page limit : Nat) : List α × Nat :=
  let total := df.length
  let start := (page - 1) * limit
  let stop := start + limit
  ((df.drop start).take (stop - start), total)

/-! ## Refresh swap: `src/arkham_api/refresh.py` (`atomic_replace_modeled_dir`)

The parent directory is a map from names to (abstract) directory contents; a
name maps to `none` when no such directory exists.  `Path.rename` failures are
injected by explicit flags (the simulated failure of the spec); a rename also
fails when its source is missing or its destination exists.  `shutil.rmtree`
with `ignore_errors=True` is modeled as always removing its target. -/

/-- The parent directory: directory name to contents. -/
def FS : Type := String → Option Nat

/-- Successful `os.rename`: the destination now holds the source's contents and
the source is gone. -/
def fsRename (fs : FS) (src dst : String) : FS :=
  fun x => if x = dst then fs src else if x = src then none else fs x

/-- `shutil.rmtree(d, ignore_errors=True)`. -/
def fsRemove (fs : FS) (d : String) : FS :=
  fun x => if x = d then none else fs x

/-- One `Path.rename` call with failure injection: `none` = the call raised
(injected, missing source, or existing destination), leaving the directory
unchanged. -/
def tryRename (inject : Bool) (fs : FS) (src dst : String) : Option FS :=
  if inject ∨ (fs src).isNone ∨ (fs dst).isSome then none
  else some (fsRename fs src dst)

/-- The `except` block of `atomic_replace_modeled_dir`: if the backup exists
and the destination does not, rename the backup back into place (a failure of
this rollback rename leaves the state unchanged and the exception still
propagates). -/
def rollbackBackup (injectRb : Bool) (fs : FS) (backupDir dstDir : String) : FS :=
  if (fs backupDir).isSome ∧ (fs dstDir).isNone then
    match tryRename injectRb fs backupDir dstDir with
    | some fs1 => fs1
    | none => fs
  else fs

/-- The `finally` block: best-effort delete of the backup if it still exists. -/
def cleanupBackup (fs : FS) (backupDir : String) : FS :=
  if (fs backupDir).isSome then fsRemove fs backupDir else fs

/-- Embeds `atomic_replace_modeled_dir` with injected rename failures.  Returns
whether an exception propagated to the caller together with the final state of
the parent directory.  `main.refresh_data` performs no cleanup of the staging
directory when this raises. -/
def atomic_replace_modeled_dir (fs : FS) (inject1 inject2 injectRb : Bool)
    (srcDir dstDir backupDir : String) : Bool × FS :=
  let afterTry : Bool × FS :=
    match (if (fs dstDir).isSome then tryRename inject1 fs dstDir backupDir else some fs) with
    | none => (true, rollbackBackup injectRb fs backupDir dstDir)
    | some fs1 =>
      match tryRename inject2 fs1 srcDir dstDir with
      | none => (true, rollbackBackup injectRb fs1 backupDir dstDir)
      | some fs2 => (false, fs2)
  (afterTry.1, cleanupBackup afterTry.2 backupDir)

/-! ## Theorems -/

/-! ### C10: pagination -/

/-- C10: for every filtered dataframe and every `page ≥ 1`, `limit ≥ 1`,
`paginate` returns the total match count computed over the whole dataframe
before slicing, and when `(page - 1) * limit` is at or past the end of the
dataframe it returns an empty slice with that same unchanged total rather than
failing. -/
theorem paginate_total_and_empty_overflow {α : Type} (df : List α) (page limit : Nat)
    (hp : 1 ≤ page) (hl : 1 ≤ limit) :
    (paginate df page limit).2 = df.length ∧
      (df.length ≤ (page - 1) * limit → (paginate df page limit).1 = []) := by
  refine ⟨rfl, fun h => ?_⟩
  simp only [paginate]
  rw [List.drop_eq_nil_of_le h]
  simp

/-- Witness for C10 at a concrete overflowing page. -/
theorem paginate_total_and_empty_overflow_witness :
    1 ≤ 3 ∧ 1 ≤ 2 ∧
      ((paginate ([10, 20] : List Nat) 3 2).2 = 2 ∧
        ((10 :: [20]).length ≤ (3 - 1) * 2 → (paginate ([10, 20] : List Nat) 3 2).1 = [])) :=
  ⟨by decide, by decide, paginate_total_and_empty_overflow [10, 20] 3 2 (by decide) (by decide)⟩

/-! ### C8: retry / backoff of the page fetcher -/

/-- Helper for C8: over any non-empty list of attempt numbers whose outcomes are
all non-auth failures, the retry loop returns the skipped-page sentinel, and the
delays slept are the backoff delays of exactly the non-final attempts that were
network failures (HTTP-level failures retry without sleeping). -/
theorem retryLoop_all_failures (delay : Nat) (outcomes : Nat → AttemptOutcome) :
    ∀ attempts : List Nat, attempts ≠ [] →
      (∀ a ∈ attempts, outcomes a = .httpError ∨ outcomes a = .netError) →
      retryLoop delay outcomes attempts =
        (.skipped, (attempts.dropLast.filter (fun a => outcomes a = .netError)).map
          (fun a => delay * 2 ^ (a - 1))) := by
  intro attempts
  induction attempts with
  | nil => intro h; exact absurd rfl h
  | cons a rest ih =>
    intro _ hall
    cases rest with
    | nil =>
      rcases hall a (by simp) with ha | ha <;> simp [retryLoop, ha]
    | cons b t =>
      have hrec := ih (by simp) (fun x hx => hall x (List.mem_cons_of_mem a hx))
      rcases hall a (by simp) with ha | ha
      · have step : retryLoop delay outcomes (a :: b :: t) =
            retryLoop delay outcomes (b :: t) := by
          simp [retryLoop, ha]
        rw [step, hrec, List.dropLast_cons₂]
        simp [ha]
      · have step : retryLoop delay outcomes (a :: b :: t) =
            ((retryLoop delay outcomes (b :: t)).1,
              delay * 2 ^ (a - 1) :: (retryLoop delay outcomes (b :: t)).2) := by
          simp [retryLoop, ha]
        rw [step, hrec, List.dropLast_cons₂]
        simp [ha]

/-- C8 (amended): for every run of the page fetcher in which every attempt hits
a non-auth HTTP-level failure or a network failure, the fetcher makes exactly
the configured number of attempts and then returns the empty-page sentinel
(skipping the page) rather than raising; the backoff wait
`base * 2 ^ (attempt - 1)` is performed before a retry only after a *network*
failure — HTTP-level failures retry immediately with no wait. -/
theorem fetch_page_retry_amended (n delay : Nat) (outcomes : Nat → AttemptOutcome)
    (hn : 1 ≤ n) (hfail : ∀ a, outcomes a = .httpError ∨ outcomes a = .netError) :
    fetch_page_with_retry n delay outcomes =
      (.skipped, ((List.range' 1 (n - 1)).filter (fun a => outcomes a = .netError)).map
        (fun a => delay * 2 ^ (a - 1))) := by
  obtain ⟨m, rfl⟩ : ∃ m, n = m + 1 := ⟨n - 1, (Nat.succ_pred_eq_of_pos hn).symm⟩
  have hne : List.range' 1 (m + 1) ≠ [] := by simp
  have := retryLoop_all_failures delay outcomes (List.range' 1 (m + 1)) hne
    (fun a _ => hfail a)
  rw [fetch_page_with_retry, this, List.range'_concat, List.dropLast_concat]
  simp

/-- Witness for C8's amended theorem: two attempts of pure network failure
sleep exactly once, for the base delay. -/
theorem fetch_page_retry_amended_witness :
    fetch_page_with_retry 2 7 (fun _ => .netError) = (.skipped, [7]) :=
  (fetch_page_retry_amended 2 7 (fun _ => .netError) (by decide)
    (fun _ => Or.inr rfl)).trans (by decide)

/-- Counterexample for C8 as stated: three attempts of non-auth HTTP-level
failure return the sentinel after performing *no* waits at all, not the
exponential-backoff waits `[base * 2 ^ 0, base * 2 ^ 1]` the claim requires
before the two retries. -/
theorem fetch_page_retry_http_counterexample :
    fetch_page_with_retry 3 5 (fun _ => .httpError) = (.skipped, []) ∧
      ([] : List Nat) ≠ [5 * 2 ^ 0, 5 * 2 ^ 1] := by
  exact ⟨by decide, by decide⟩

/-! ### C1: atomic swap and transient directories -/

/-- Concrete parent directory for the C1 counterexample: the serving directory
`modeled` (contents 1) and a freshly staged `.modeled.tmp-a` (contents 2). -/
def c1FS : FS := fun x =>
  if x = "modeled" then some 1
  else if x = ".modeled.tmp-a" then some 2
  else none

/-- Counterexample for C1 as stated: when the second rename inside
`atomic_replace_modeled_dir` fails, the exception propagates and the original
serving directory is restored — but the staging `.{name}.tmp-<random>`
directory is still on disk after the failed refresh (`refresh_data` performs no
cleanup of it), so transient sibling directories do remain. -/
theorem atomic_replace_tmp_persists_counterexample :
    (atomic_replace_modeled_dir c1FS false true false
        (".modeled.tmp-a") ("modeled") (".modeled.bak-b")).1 = true ∧
      (atomic_replace_modeled_dir c1FS false true false
        (".modeled.tmp-a") ("modeled") (".modeled.bak-b")).2 ("modeled") = some 1 ∧
      (atomic_replace_modeled_dir c1FS false true false
        (".modeled.tmp-a") ("modeled") (".modeled.bak-b")).2 (".modeled.tmp-a") = some 2 := by
  exact ⟨by decide, by decide, by decide⟩

/-- C1 (amended): if the second rename fails after the serving directory was
renamed to the backup, the exception propagates, the original serving directory
is restored at its original path, no backup directory remains, and the staging
directory is left on disk; after a successful swap the new contents serve and
no transient sibling directories (staging or backup) remain. -/
theorem atomic_replace_amended (fs : FS) (src dst bak : String) (v w : Nat)
    (hsd : src ≠ dst) (hsb : src ≠ bak) (hdb : dst ≠ bak)
    (hsrc : fs src = some w) (hdst : fs dst = some v) (hbak : fs bak = none) :
    ((atomic_replace_modeled_dir fs false true false src dst bak).1 = true ∧
      (atomic_replace_modeled_dir fs false true false src dst bak).2 dst = some v ∧
      (atomic_replace_modeled_dir fs false true false src dst bak).2 bak = none ∧
      (atomic_replace_modeled_dir fs false true false src dst bak).2 src = some w) ∧
    ((atomic_replace_modeled_dir fs false false false src dst bak).1 = false ∧
      (atomic_replace_modeled_dir fs false false false src dst bak).2 dst = some w ∧
      (atomic_replace_modeled_dir fs false false false src dst bak).2 src = none ∧
      (atomic_replace_modeled_dir fs false false false src dst bak).2 bak = none) := by
  constructor
  · simp [atomic_replace_modeled_dir, tryRename, fsRename, rollbackBackup, cleanupBackup,
      fsRemove, hsrc, hdst, hbak, hsd, hsb, hdb, Ne.symm hsd, Ne.symm hsb, Ne.symm hdb]
  · simp [atomic_replace_modeled_dir, tryRename, fsRename, rollbackBackup, cleanupBackup,
      fsRemove, hsrc, hdst, hbak, hsd, hsb, hdb, Ne.symm hsd, Ne.symm hsb, Ne.symm hdb]

/-- Concrete parent directory for the C1 witness. -/
def c1WitnessFS : FS := fun x =>
  if x = "serving" then some 3
  else if x = ".serving.tmp-w" then some 4
  else none

/-- Witness for C1's amended theorem at a concrete parent directory. -/
theorem atomic_replace_amended_witness :
    ((atomic_replace_modeled_dir c1WitnessFS false true false
        (".serving.tmp-w") ("serving") (".serving.bak-w")).1 = true ∧
      (atomic_replace_modeled_dir c1WitnessFS false true false
        (".serving.tmp-w") ("serving") (".serving.bak-w")).2 ("serving") = some 3 ∧
      (atomic_replace_modeled_dir c1WitnessFS false true false
        (".serving.tmp-w") ("serving") (".serving.bak-w")).2 (".serving.bak-w") = none ∧
      (atomic_replace_modeled_dir c1WitnessFS false true false
        (".serving.tmp-w") ("serving") (".serving.bak-w")).2 (".serving.tmp-w") = some 4) ∧
    ((atomic_replace_modeled_dir c1WitnessFS false false false
        (".serving.tmp-w") ("serving") (".serving.bak-w")).1 = false ∧
      (atomic_replace_modeled_dir c1WitnessFS false false false
        (".serving.tmp-w") ("serving") (".serving.bak-w")).2 ("serving") = some 4 ∧
      (atomic_replace_modeled_dir c1WitnessFS false false false
        (".serving.tmp-w") ("serving") (".serving.bak-w")).2 (".serving.tmp-w") = none ∧
      (atomic_replace_modeled_dir c1WitnessFS false false false
        (".serving.tmp-w") ("serving") (".serving.bak-w")).2 (".serving.bak-w") = none) :=
  atomic_replace_amended c1WitnessFS (".serving.tmp-w") ("serving") (".serving.bak-w") 3 4
    (by decide) (by decide) (by decide) (by decide) (by decide) (by decide)

/-! ### C3: incremental merge -/

/-- Helper: every row kept by the keep-last dedup comes from the input. -/
theorem dedupKeepLast_subset {α β : Type} [DecidableEq β] (key : α → β) :
    ∀ l : List α, ∀ x ∈ dedupKeepLast key l, x ∈ l := by
  intro l
  induction l with
  | nil => intro x hx; exact absurd hx (by simp [dedupKeepLast])
  | cons a as ih =>
    intro x hx
    rw [dedupKeepLast] at hx
    by_cases hA : as.any (fun y => key y = key a) = true
    · rw [if_pos hA] at hx
      exact List.mem_cons_of_mem a (ih x hx)
    · rw [if_neg hA] at hx
      rcases List.mem_cons.mp hx with h | h
      · exact h ▸ List.mem_cons_self a as
      · exact List.mem_cons_of_mem a (ih x h)

/-- Helper: the keep-last dedup leaves pairwise distinct keys. -/
theorem dedupKeepLast_pairwise {α β : Type} [DecidableEq β] (key : α → β) :
    ∀ l : List α, (dedupKeepLast key l).Pairwise (fun a b => key a ≠ key b) := by
  intro l
  induction l with
  | nil => simp [dedupKeepLast]
  | cons a as ih =>
    rw [dedupKeepLast]
    by_cases hA : as.any (fun y => key y = key a) = true
    · rw [if_pos hA]; exact ih
    · rw [if_neg hA]
      refine List.Pairwise.cons (fun y hy => ?_) ih
      have hmem := dedupKeepLast_subset key as y hy
      have : ¬∃ x ∈ as, key x = key a := by
        simpa using hA
      exact fun hk => this ⟨y, hmem, hk.symm⟩

/-- Helper: looking a key up in the keep-last dedup finds the last input row
with that key. -/
theorem dedupKeepLast_find? {α β : Type} [DecidableEq β] (key : α → β) (k : β) :
    ∀ l : List α, (dedupKeepLast key l).find? (fun r => key r = k) =
      (l.filter (fun r => key r = k)).getLast? := by
  intro l
  induction l with
  | nil => simp [dedupKeepLast]
  | cons a as ih =>
    rw [dedupKeepLast]
    by_cases hA : as.any (fun y => key y = key a) = true
    · rw [if_pos hA]
      by_cases hk : key a = k
      · have hne : as.filter (fun r => decide (key r = k)) ≠ [] := by
          obtain ⟨y, hy, hky⟩ := List.any_eq_true.mp hA
          intro hnil
          have := List.filter_eq_nil_iff.mp hnil y hy
          simp only [decide_eq_true_eq] at this hky
          exact this (hky.trans hk)
        rw [ih]
        have hfilter : (a :: as).filter (fun r => decide (key r = k)) =
            a :: as.filter (fun r => decide (key r = k)) := by
          simp [List.filter_cons, hk]
        rw [hfilter]
        cases hcase : as.filter (fun r => decide (key r = k)) with
        | nil => exact absurd hcase hne
        | cons b t => rw [List.getLast?_cons_cons]
      · rw [ih]
        have hfilter : (a :: as).filter (fun r => decide (key r = k)) =
            as.filter (fun r => decide (key r = k)) := by
          simp [List.filter_cons, hk]
        rw [hfilter]
    · rw [if_neg hA]
      by_cases hk : key a = k
      · have hnil : as.filter (fun r => decide (key r = k)) = [] := by
          rw [List.filter_eq_nil_iff]
          intro y hy
          simp only [decide_eq_true_eq]
          intro hky
          have hnotex : ¬∃ x ∈ as, key x = key a := by simpa using hA
          exact hnotex ⟨y, hy, hky.trans hk.symm⟩
        have hfilter : (a :: as).filter (fun r => decide (key r = k)) =
            a :: as.filter (fun r => decide (key r = k)) := by
          simp [List.filter_cons, hk]
        simp [List.find?_cons, hk, hfilter, hnil]
      · have hfilter : (a :: as).filter (fun r => decide (key r = k)) =
            as.filter (fun r => decide (key r = k)) := by
          simp [List.filter_cons, hk]
        simp [List.find?_cons, hk, hfilter, ih]

/-- C3: for every prior raw dataset and every set of newly fetched validated
rows, the incremental merge written by `run_connector` (concat + keep-last
dedup on the `(period, facility, generator)` key) contains no duplicate key,
and wherever a key occurs in both the prior dataset and the new rows, the
merged output keeps the newly fetched row's values (the last new row with that
key). -/
theorem merge_incremental_no_dups_new_wins (existing df : List RawRec) :
    (mergeIncremental existing df).Pairwise (fun a b => recKey a ≠ recKey b) ∧
    (∀ k, k ∈ existing.map recKey → k ∈ df.map recKey →
      (mergeIncremental existing df).find? (fun r => recKey r = k) =
        (df.filter (fun r => recKey r = k)).getLast?) := by
  constructor
  · exact dedupKeepLast_pairwise recKey (existing ++ df)
  · intro k hex hdf
    rw [mergeIncremental, dedupKeepLast_find? recKey k (existing ++ df),
      List.filter_append, List.getLast?_append]
    have hne : df.filter (fun r => decide (recKey r = k)) ≠ [] := by
      obtain ⟨r, hr, hk⟩ := List.mem_map.mp hdf
      intro hnil
      have := List.filter_eq_nil_iff.mp hnil r hr
      simp only [decide_eq_true_eq] at this
      exact this hk
    cases hcase : df.filter (fun r => decide (recKey r = k)) with
    | nil => exact absurd hcase hne
    | cons b t =>
      cases hg : (b :: t).getLast? with
      | none => simp at hg
      | some x => simp [hg, Option.or]

/-- Concrete prior dataset for the C3 witness. -/
def c3Existing : List RawRec := [⟨some 1, some ("f"), some ("g"), 0⟩]

/-- Concrete newly fetched rows for the C3 witness (same key, new payload). -/
def c3New : List RawRec := [⟨some 1, some ("f"), some ("g"), 5⟩]

/-- Witness for C3: a key present in both the prior dataset and the new rows
resolves to the new row in the merged output. -/
theorem merge_incremental_no_dups_new_wins_witness :
    ((some 1, some ("f"), some ("g")) ∈ c3Existing.map recKey) ∧
    ((some 1, some ("f"), some ("g")) ∈ c3New.map recKey) ∧
    (mergeIncremental c3Existing c3New).find?
        (fun r => recKey r = (some 1, some ("f"), some ("g"))) =
      (c3New.filter (fun r => recKey r = (some 1, some ("f"), some ("g")))).getLast? :=
  ⟨by decide, by decide,
    (merge_incremental_no_dups_new_wins c3Existing c3New).2
      (some 1, some ("f"), some ("g")) (by decide) (by decide)⟩

/-! ### C4: incremental early-stop condition -/

/-- Helper: every row of the validated page frame has a parsed period. -/
theorem pageValidRows_period_isSome (records : List RawRec) :
    ∀ r ∈ pageValidRows records, r.period.isSome = true := by
  intro r hr
  have hok := (List.mem_filter.mp hr).2
  rw [requiredFieldsOK] at hok
  simp only [Bool.and_eq_true] at hok
  exact hok.1.1

/-- Helper: a page whose maximum parsed period exists has a row with a parsed
period (the `page_df["period"].notna().any()` condition of the source). -/
theorem pageParsedMax_any (records : List RawRec) (pm : Nat)
    (h : pageParsedMax records = some pm) :
    (pageValidRows records).any (fun r => r.period.isSome) = true := by
  have hne : pageValidRows records ≠ [] := by
    intro hnil
    rw [pageParsedMax, hnil] at h
    simp at h
  obtain ⟨r, hr⟩ := List.exists_mem_of_ne_nil _ hne
  exact List.any_eq_true.mpr ⟨r, hr, pageValidRows_period_isSome records r hr⟩

/-- C4: in incremental mode (incremental processing active and the page
carrying the key fields), a non-empty page stops the loop with the early-stop
outcome exactly when early-stop is enabled, a prior high-water-mark period
exists, the page's maximum parsed period exists and is at most that mark, and
the page contributed zero new rows; when any condition fails the loop
continues, subject only to the other stop conditions. -/
theorem step_early_stop_iff (s : ConnSettings) (hwm : Option Nat) (st : LoopState)
    (page : PageData) (hact : st.incrementalActive = true)
    (hkf : page.hasKeyFields = true) (hne : page.records ≠ []) :
    (stepPage s hwm st (some page)).reason? = some .earlyIncremental ↔
      (s.earlyStopOnOldPeriod = true ∧
        ∃ m, hwm = some m ∧ ∃ pm, pageParsedMax page.records = some pm ∧ pm ≤ m ∧
          pageNewRows st.existingKeys page.records = []) := by
  simp only [stepPage, hact, hkf, if_neg hne, eq_self_iff_true, if_true]
  cases hm : hwm with
  | none =>
    rw [if_neg (by simp)]
    refine iff_of_false ?_ ?_
    · intro h
      split at h <;> (try split at h) <;> simp [StepOutcome.reason?] at h
    · rintro ⟨-, m, hm2, -⟩
      exact Option.noConfusion hm2
  | some m =>
    cases hPM : pageParsedMax page.records with
    | none =>
      rw [if_neg (by simp)]
      refine iff_of_false ?_ ?_
      · intro h
        split at h <;> (try split at h) <;> simp [StepOutcome.reason?] at h
      · rintro ⟨-, m2, hm2, pm, hpm2, -⟩
        exact Option.noConfusion hpm2
    | some pm =>
      by_cases hES : s.earlyStopOnOldPeriod = true
      · by_cases hle : pm ≤ m
        · by_cases hNew : pageNewRows st.existingKeys page.records = []
          · rw [if_pos (by simp [hES, hle, hNew, pageParsedMax_any page.records pm hPM])]
            exact iff_of_true rfl ⟨hES, m, rfl, pm, rfl, hle, hNew⟩
          · rw [if_neg (by simp [hNew])]
            refine iff_of_false ?_ ?_
            · intro h
              split at h <;> (try split at h) <;> simp [StepOutcome.reason?] at h
            · rintro ⟨-, m2, hm2, pm2, hpm2, -, hNew2⟩
              exact hNew hNew2
        · rw [if_neg (by simp [hle])]
          refine iff_of_false ?_ ?_
          · intro h
            split at h <;> (try split at h) <;> simp [StepOutcome.reason?] at h
          · rintro ⟨-, m2, hm2, pm2, hpm2, hle2, -⟩
            rw [Option.some_inj] at hm2 hpm2
            subst hm2
            subst hpm2
            exact hle hle2
      · rw [Bool.not_eq_true] at hES
        rw [if_neg (by simp [hES])]
        refine iff_of_false ?_ ?_
        · intro h
          split at h <;> (try split at h) <;> simp [StepOutcome.reason?] at h
        · rintro ⟨hES2, -⟩
          rw [hES] at hES2
          exact Bool.noConfusion hES2

/-- Witness for C4: a concrete active incremental state and a page of only
already-known old-period rows fires the early stop. -/
theorem step_early_stop_iff_witness :
    (stepPage ⟨5, 0, true, true⟩ (some 10)
        ⟨[], [], [(some 5, some ("f"), some ("g"))], true⟩
        (some ⟨true, [⟨some 5, some ("f"), some ("g"), 0⟩]⟩)).reason? =
      some .earlyIncremental :=
  (step_early_stop_iff ⟨5, 0, true, true⟩ (some 10)
      ⟨[], [], [(some 5, some ("f"), some ("g"))], true⟩
      ⟨true, [⟨some 5, some ("f"), some ("g"), 0⟩]⟩ rfl rfl (by decide)).mpr
    ⟨rfl, 10, rfl, 5, by decide, by decide, by decide⟩

/-! ### C5: empty dataset after validation -/

/-- Counterexample for C5 as stated: a cold (non-incremental) run whose single
collected record has a null period collects one record, drops it during the
required-field validation, and still writes — producing an empty dataset
(`df.empty` is checked *before* the `dropna` validation in the source, not
after). -/
theorem empty_after_validation_counterexample :
    (run_connector ⟨5, 10, false, true⟩ none
        [some ⟨true, [⟨none, some ("100"), some ("1"), 0⟩]⟩]).written = some [] ∧
      (run_connector ⟨5, 10, false, true⟩ none
        [some ⟨true, [⟨none, some ("100"), some ("1"), 0⟩]⟩]).finalState.allRecords.length = 1 := by
  exact ⟨by decide, by decide⟩

/-- C5 (amended): `run_connector` aborts without writing exactly when the
collected set is empty *before* validation — an incremental run with zero new
records, or any run with zero collected records; a record set that only becomes
empty after the required-field `dropna` is still written. -/
theorem run_connector_no_write_amended (s : ConnSettings) (existing : Option (List RawRec))
    (pages : List (Option PageData)) :
    ((run_connector s existing pages).finalState.incrementalActive = true →
      (run_connector s existing pages).finalState.newRecords = [] →
      (run_connector s existing pages).written = none) ∧
    ((run_connector s existing pages).finalState.incrementalActive = false →
      (run_connector s existing pages).finalState.allRecords = [] →
      (run_connector s existing pages).written = none) := by
  have hfin : ∀ (ex : Option (List RawRec)) (st : LoopState),
      (st.incrementalActive = true → st.newRecords = [] → finalizeRun ex st = none) ∧
      (st.incrementalActive = false → st.allRecords = [] → finalizeRun ex st = none) := by
    intro ex st
    constructor <;> (intro h1 h2; simp [finalizeRun, h1, h2])
  exact ⟨fun h1 h2 => (hfin _ _).1 h1 h2, fun h1 h2 => (hfin _ _).2 h1 h2⟩

/-- Witness for C5's amended theorem: a run over an exhausted page sequence
collects nothing and writes nothing. -/
theorem run_connector_no_write_amended_witness :
    (run_connector ⟨5, 10, false, true⟩ none []).finalState.incrementalActive = false ∧
      (run_connector ⟨5, 10, false, true⟩ none []).finalState.allRecords = [] ∧
      (run_connector ⟨5, 10, false, true⟩ none []).written = none :=
  ⟨by decide, by decide,
    (run_connector_no_write_amended ⟨5, 10, false, true⟩ none []).2 (by decide) (by decide)⟩

/-! ### C6: cap trimming -/

/-- Concrete prior dataset for the C6 counterexample (three known keys). -/
def c6Existing : List RawRec :=
  [⟨some 1, some ("f"), some ("g"), 1⟩, ⟨some 2, some ("f"), some ("g"), 2⟩,
   ⟨some 3, some ("f"), some ("g"), 3⟩]

/-- First fetched page for C6: four records with key fields, three already
known, one new. -/
def c6Page1 : PageData :=
  ⟨true, [⟨some 1, some ("f"), some ("g"), 11⟩, ⟨some 2, some ("f"), some ("g"), 12⟩,
          ⟨some 3, some ("f"), some ("g"), 13⟩, ⟨some 9, some ("f"), some ("g"), 14⟩]⟩

/-- Second fetched page for C6: four records *without* the key fields, which
deactivates incremental mode and appends them to `all_records`. -/
def c6Page2 : PageData :=
  ⟨false, [⟨some 21, some ("x"), some ("y"), 21⟩, ⟨some 22, some ("x"), some ("y"), 22⟩,
           ⟨some 23, some ("x"), some ("y"), 23⟩, ⟨some 24, some ("x"), some ("y"), 24⟩]⟩

/-- Counterexample for C6 as stated: with cap 3, page size 4, and incremental
mode deactivating on the second page, the cap stop fires with 5 records seen
(4 in `all_records`, 1 in `new_records`); the trim empties `new_records` (the
wrong collection — the overflow came from `all_records`) and retains 4 records,
not the cap of 3; the written dataset also has 4 records. -/
theorem cap_trim_counterexample :
    (run_connector ⟨4, 3, true, false⟩ (some c6Existing)
        [some c6Page1, some c6Page2]).stopReason = .capReached ∧
      (run_connector ⟨4, 3, true, false⟩ (some c6Existing)
          [some c6Page1, some c6Page2]).finalState.allRecords.length +
        (run_connector ⟨4, 3, true, false⟩ (some c6Existing)
          [some c6Page1, some c6Page2]).finalState.newRecords.length = 4 ∧
      (run_connector ⟨4, 3, true, false⟩ (some c6Existing)
        [some c6Page1, some c6Page2]).written.map List.length = some 4 := by
  exact ⟨by decide, by decide, by decide⟩

/-- C6 (amended): in the two pure modes — full mode (`new_records` empty) and
fully incremental mode (`all_records` empty) — reaching the cap trims the tail
of the active accumulator so that exactly `max_records` records are retained;
the exactness guarantee does not extend to runs where incremental mode
deactivates partway through. -/
theorem applyCapTrim_exact_in_pure_modes (cap : Nat) (allRecs newRecs : List RawRec)
    (hcap : 1 ≤ cap) (hreach : cap ≤ allRecs.length + newRecs.length)
    (hpure : allRecs = [] ∨ newRecs = []) :
    (applyCapTrim cap allRecs newRecs).1.length +
      (applyCapTrim cap allRecs newRecs).2.length = cap := by
  rcases hpure with h | h <;> subst h <;> simp only [applyCapTrim] <;> split_ifs with h1 h2 h3
  all_goals
    first
      | exact absurd rfl h2
      | (try rw [not_not] at h2
         try subst h2
         try simp [List.length_take] at *
         try omega)

/-- Witness for C6's amended theorem at a concrete pure-incremental overflow. -/
theorem applyCapTrim_exact_in_pure_modes_witness :
    (applyCapTrim 2 []
          [⟨some 1, some ("f"), some ("g"), 1⟩, ⟨some 2, some ("f"), some ("g"), 2⟩,
           ⟨some 3, some ("f"), some ("g"), 3⟩]).1.length +
      (applyCapTrim 2 []
          [⟨some 1, some ("f"), some ("g"), 1⟩, ⟨some 2, some ("f"), some ("g"), 2⟩,
           ⟨some 3, some ("f"), some ("g"), 3⟩]).2.length = 2 :=
  applyCapTrim_exact_in_pure_modes 2 []
    [⟨some 1, some ("f"), some ("g"), 1⟩, ⟨some 2, some ("f"), some ("g"), 2⟩,
     ⟨some 3, some ("f"), some ("g"), 3⟩] (by decide) (by decide) (Or.inl rfl)

/-! ### C7: DimPlant uniqueness -/

/-- Failing input for C7: one `(facility, generator)` pair reported under two
different facility names. -/
def c7Raw : List RawRow :=
  [⟨daysFromCivil 2025 1 1, ("1"), ("A"), ("1")⟩,
   ⟨daysFromCivil 2025 1 1, ("1"), ("B"), ("1")⟩]

/-- C7 (code bug): `build_dim_plant` deduplicates the full
`(facility, facilityName, generator)` triple, so a pair reported under two
facility names yields *two* rows with the same `(EIA_FacilityID, Generator)` —
contradicting the module's own documentation ("DimPlant: one row per
facility+generator") and the `validate="many_to_one"` assertion of
`build_fact_outage`, which consequently fails (modeled as `none`, pandas
`MergeError`) on the very table `build_dim_plant` produced. -/
theorem dim_plant_duplicate_pair_bug :
    (build_dim_plant c7Raw).map (fun p => (p.facilityID, p.generator)) =
        [(("1"), ("1")), (("1"), ("1"))] ∧
      build_fact_outage c7Raw (build_dim_plant c7Raw) = none := by
  exact ⟨by decide, by decide⟩

/-! ### C9: EIA_OutageID round-trip -/

/-- Helper for C9: every row built by `assignFactRows` stores exactly the id
that `reconstructOutageID` rebuilds from its `PlantKey`/`DateKey`. -/
theorem assignFactRows_roundtrip (dimPlant : List PlantRow) :
    ∀ (events : List (Nat × Nat × Nat)) (k : Nat) (fr : FactRow),
      fr ∈ assignFactRows dimPlant k events →
      reconstructOutageID dimPlant fr = fr.eiaOutageID := by
  intro events
  induction events with
  | nil => intro k fr h; exact absurd h (by simp [assignFactRows])
  | cons e es ih =>
    intro k fr h
    rw [assignFactRows] at h
    rcases List.mem_cons.mp h with h | h
    · subst h
      rfl
    · exact ih (k + 1) fr h

/-- C9: for every fact row produced by `build_fact_outage`, the stored
`EIA_OutageID` equals `"{FacilityID}-{Generator}-{StartDateKey}"` reconstructed
from that row's plant identifiers (recovered through `DimPlant` by the row's
`PlantKey`, exactly as the builder's left merge attached them) and its start
date key. -/
theorem eia_outage_id_roundtrip (dfRaw : List RawRow) (dimPlant : List PlantRow)
    (facts : List FactRow) (h : build_fact_outage dfRaw dimPlant = some facts) :
    ∀ fr ∈ facts, reconstructOutageID dimPlant fr = fr.eiaOutageID := by
  intro fr hfr
  rw [build_fact_outage] at h
  split_ifs at h with hval
  rw [Option.some_inj] at h
  subst h
  exact assignFactRows_roundtrip dimPlant _ 1 fr hfr

/-- Concrete raw input for the C9 witness. -/
def c9Raw : List RawRow := [⟨daysFromCivil 2025 1 1, ("100"), ("Plant A"), ("1")⟩]

/-- The single fact row `build_fact_outage` produces on `c9Raw`. -/
def c9Fact0 : FactRow :=
  ⟨1, 1, 20250101, daysFromCivil 2025 1 1, daysFromCivil 2025 1 1 + 1, 24,
    ("100-1-20250101")⟩

/-- Witness for C9 at the concrete one-row dataset. -/
theorem eia_outage_id_roundtrip_witness :
    build_fact_outage c9Raw (build_dim_plant c9Raw) = some [c9Fact0] ∧
      reconstructOutageID (build_dim_plant c9Raw) c9Fact0 = c9Fact0.eiaOutageID :=
  ⟨by decide,
    eia_outage_id_roundtrip c9Raw (build_dim_plant c9Raw) [c9Fact0] (by decide)
      c9Fact0 (by decide)⟩

/-! ### C2: event merging and splitting -/

/-- Number of gap boundaries in a date list: adjacent pairs whose day gap is
not exactly 1.  Each such boundary starts a new outage event; for strictly
ascending dates this counts exactly the gaps of 2 or more days. -/
def gapSplits (ds : List Nat) : Nat :=
  (ds.zip ds.tail).countP (fun p => decide (p.2 - p.1 ≠ 1))

/-- Unfolding lemma for `gapSplits` on two leading dates. -/
theorem gapSplits_cons_cons (a b : Nat) (t : List Nat) :
    gapSplits (a :: b :: t) = gapSplits (b :: t) + (if b - a ≠ 1 then 1 else 0) := by
  simp [gapSplits, List.countP_cons]

/-- Helper for C2: over a single plant, the collapsing scan produces one event
per maximal gap-free run — one plus the number of gap boundaries. -/
theorem collapseEventsGo_length_single :
    ∀ (rest : List Nat) (s last : Nat),
      (collapseEventsGo 1 s last (rest.map (fun d => (1, d)))).length =
        1 + gapSplits (last :: rest) := by
  intro rest
  induction rest with
  | nil => intro s last; simp [collapseEventsGo, gapSplits]
  | cons d t ih =>
    intro s last
    rw [List.map_cons, collapseEventsGo]
    by_cases hgap : d - last = 1
    · rw [if_pos ⟨rfl, hgap⟩, ih s d, gapSplits_cons_cons]
      simp [hgap]
    · rw [if_neg (fun hc => hgap hc.2), List.length_cons, ih d d, gapSplits_cons_cons]
      simp [hgap]
      omega

/-- Helper: the seen-accumulator dedup drops a list all of whose elements were
already seen. -/
theorem dropDupFirstGo_all_seen {α : Type} [DecidableEq α] (t : α) :
    ∀ (l seen : List α), (∀ x ∈ l, x = t) → t ∈ seen →
      dropDupFirstGo seen l = [] := by
  intro l
  induction l with
  | nil => intro seen _ _; rfl
  | cons x xs ih =>
    intro seen hall hseen
    rw [dropDupFirstGo]
    have hx : x = t := hall x (by simp)
    rw [if_pos (hx ▸ hseen)]
    exact ih seen (fun y hy => hall y (by simp [hy])) hseen

/-- Helper: deduplicating a non-empty constant list keeps one row. -/
theorem dropDupFirst_const {α : Type} [DecidableEq α] (t : α) (l : List α)
    (hall : ∀ x ∈ l, x = t) (hne : l ≠ []) : dropDupFirst l = [t] := by
  cases l with
  | nil => exact absurd rfl hne
  | cons x xs =>
    have hx : x = t := hall x (by simp)
    subst hx
    rw [dropDupFirst, dropDupFirstGo, if_neg (by simp)]
    rw [dropDupFirstGo_all_seen x xs [x] (fun y hy => hall y (by simp [hy])) (by simp)]

/-- Helper: `build_dim_plant` on a single-plant raw set yields exactly one
plant row with surrogate key 1. -/
theorem build_dim_plant_single (f nm g : String) (ds : List Nat) (hne : ds ≠ []) :
    build_dim_plant (ds.map (fun d => ⟨d, f, nm, g⟩)) =
      [⟨1, f, nm, "Unit " ++ g, g⟩] := by
  simp only [build_dim_plant, List.map_map]
  have hconst : (ds.map ((fun r : RawRow => (r.facility, r.facilityName, r.generator)) ∘
      (fun d => ⟨d, f, nm, g⟩))) = ds.map (fun _ => (f, nm, g)) := rfl
  rw [hconst, dropDupFirst_const (f, nm, g)]
  · rfl
  · intro x hx
    obtain ⟨d, _, rfl⟩ := List.mem_map.mp hx
    rfl
  · simpa using hne

/-- Helper: joining a single-plant raw set to its one-row `DimPlant` attaches
key 1 to every raw row, in order. -/
theorem filterMap_single_plant (f nm g : String) (ds : List Nat) :
    (ds.map (fun d => (⟨d, f, nm, g⟩ : RawRow))).filterMap (fun r =>
        (([⟨1, f, nm, "Unit " ++ g, g⟩] : List PlantRow).find?
          (fun p => p.facilityID = r.facility ∧ p.generator = r.generator)).map
          (fun p => (p.plantKey, r.period))) =
      ds.map (fun d => (1, d)) := by
  rw [List.filterMap_map]
  have hfn : ((fun r : RawRow =>
      (([⟨1, f, nm, "Unit " ++ g, g⟩] : List PlantRow).find?
        (fun p => p.facilityID = r.facility ∧ p.generator = r.generator)).map
        (fun p => (p.plantKey, r.period))) ∘ (fun d => (⟨d, f, nm, g⟩ : RawRow))) =
      fun d => some ((1 : Nat), d) := by
    funext d
    simp [List.find?]
  rw [hfn]
  show List.filterMap (some ∘ fun d => ((1 : Nat), d)) ds = _
  rw [List.filterMap_eq_map]

/-- Helper: strictly ascending dates of one plant are sorted for the
`(PlantKey, period)` sort. -/
theorem sorted_single_plant (ds : List Nat) (hs : ds.Chain' (· < ·)) :
    List.Sorted rawKeyOrd (ds.map (fun d => (1, d))) := by
  have hp : ds.Pairwise (· < ·) := List.chain'_iff_pairwise.mp hs
  exact hp.map _ (fun a b hab => Or.inr ⟨rfl, le_of_lt hab⟩)

/-- Helper: fact-row building preserves the number of events. -/
theorem assignFactRows_length (dp : List PlantRow) :
    ∀ (events : List (Nat × Nat × Nat)) (k : Nat),
      (assignFactRows dp k events).length = events.length := by
  intro events
  induction events with
  | nil => intro k; rfl
  | cons e es ih => intro k; rw [assignFactRows, List.length_cons, ih (k + 1), List.length_cons]

/-- The raw rows of the spec's end-to-end example: one plant observed on
2025-01-01, 2025-01-02, 2025-01-03 and 2025-01-05. -/
def c2Raw : List RawRow :=
  [⟨daysFromCivil 2025 1 1, ("100"), ("Plant"), ("1")⟩,
   ⟨daysFromCivil 2025 1 2, ("100"), ("Plant"), ("1")⟩,
   ⟨daysFromCivil 2025 1 3, ("100"), ("Plant"), ("1")⟩,
   ⟨daysFromCivil 2025 1 5, ("100"), ("Plant"), ("1")⟩]

/-- C2: (general part) for every single-plant raw input with strictly
ascending dates, `build_fact_outage` produces exactly one event per maximal
gap-free run — a day gap of exactly 1 merges adjacent rows into the same event
and every other gap (2 or more days between distinct dates) starts a new one,
so the number of events is one plus the number of gap boundaries; (example
part) the spec's raw rows 2025-01-01/02/03/05 collapse to exactly two events:
one starting 2025-01-01 with exclusive end 2025-01-04 and 72 hours duration,
one starting 2025-01-05 with exclusive end 2025-01-06 and 24 hours duration. -/
theorem build_fact_outage_gap_semantics :
    (∀ (f nm g : String) (ds : List Nat), ds ≠ [] → ds.Chain' (· < ·) →
      (build_fact_outage (ds.map (fun d => ⟨d, f, nm, g⟩))
          (build_dim_plant (ds.map (fun d => ⟨d, f, nm, g⟩)))).map List.length =
        some (1 + gapSplits ds)) ∧
    (build_fact_outage c2Raw (build_dim_plant c2Raw)).map
        (fun l => l.map (fun r =>
          (r.outageStartTimestamp, r.outageEndTimestamp, r.outageDurationHours))) =
      some [(daysFromCivil 2025 1 1, daysFromCivil 2025 1 4, 72),
            (daysFromCivil 2025 1 5, daysFromCivil 2025 1 6, 24)] := by
  constructor
  · intro f nm g ds hne hs
    rw [build_dim_plant_single f nm g ds hne, build_fact_outage]
    rw [if_pos (by simp [pairsUnique, plantKeysUnique])]
    rw [filterMap_single_plant f nm g ds]
    simp only [Option.map_some', Option.some.injEq]
    rw [(sorted_single_plant ds hs).insertionSort_eq]
    cases ds with
    | nil => exact absurd rfl hne
    | cons d t =>
      rw [List.map_cons, assignFactRows_length,
        (List.perm_insertionSort eventOrd _).length_eq, collapseEvents]
      exact collapseEventsGo_length_single t d d
  · exact (by decide)

/-- Witness for C2's general part at a concrete single-plant date list with one
1-day gap (merged) and one 3-day gap (split): two events result. -/
theorem build_fact_outage_gap_semantics_witness :
    ([1, 2, 5] : List Nat) ≠ [] ∧
      (build_fact_outage ([1, 2, 5].map (fun d => ⟨d, ("f"), ("n"), ("g")⟩))
          (build_dim_plant
            ([1, 2, 5].map (fun d => ⟨d, ("f"), ("n"), ("g")⟩)))).map List.length =
        some (1 + gapSplits [1, 2, 5]) :=
  ⟨by decide,
    build_fact_outage_gap_semantics.1 ("f") ("n") ("g") [1, 2, 5] (by decide)
      (by simp [List.chain'_cons])⟩
